import Mathlib

/-!
Shallow embedding of the SpaceApp exoplanet-detection core
(`src/lib/dataProcessing.ts`, `src/lib/exoplanetDetector.ts`) over the reals.

JavaScript numbers are idealised as real numbers.  The JS remainder
operator `%` (truncated toward zero) is modelled by `jsRem`.  The one place
where the source can produce `NaN` from well-formed real inputs — the median
of an empty detrending window — is modelled with `Option ℝ` (`none` = NaN).
The TensorFlow model is opaque in the source, so the detector is embedded
with an abstract model-parameter type and an abstract forward pass.
-/

set_option maxHeartbeats 1000000

noncomputable section

open scoped Classical

namespace SpaceApp

/-- A light curve: parallel arrays of sample times and flux values,
as in `interface LightCurveData` of `dataProcessing.ts`. -/
structure LightCurveData where
  time : List ℝ
  flux : List ℝ

/-- Truncation toward zero, the rounding used by the JavaScript `%` operator. -/
def jsTrunc (x : ℝ) : ℤ :=
  if 0 ≤ x then ⌊x⌋ else ⌈x⌉

/-- The JavaScript remainder `x % p` (sign follows the dividend). -/
def jsRem (x p : ℝ) : ℝ :=
  x - p * (jsTrunc (x / p) : ℤ)

/-- The in-transit test of `evaluatePeriod`: `phase < 0.1 || phase > 0.9`. -/
def inWindow (phase : ℝ) : Prop :=
  phase < 0.1 ∨ phase > 0.9

/-- Embedding of `evaluatePeriod` (`dataProcessing.ts` lines 183-209):
phases are `(t % period) / period`; samples are pushed into the in-transit
or out-of-transit array; if either array is empty the result is `(0, 0)`,
otherwise `(depth, |depth| * sqrt inCount)` with
`depth = 1 - inMean / outMean`. -/
def evaluatePeriod (data : LightCurveData) (period : ℝ) : ℝ × ℝ :=
  let phases := data.time.map fun t => jsRem t period / period
  let parts := (phases.zip data.flux).foldl
    (fun acc pf =>
      if inWindow pf.1 then (acc.1 ++ [pf.2], acc.2) else (acc.1, acc.2 ++ [pf.2]))
    (([] : List ℝ), ([] : List ℝ))
  if parts.1.length = 0 ∨ parts.2.length = 0 then (0, 0)
  else
    let inMean := parts.1.sum / parts.1.length
    let outMean := parts.2.sum / parts.2.length
    let depth := 1 - inMean / outMean
    (depth, |depth| * Real.sqrt parts.1.length)

/-- The `maxPeriod` bound of `calculateBLS`:
`Math.min(20, (time[time.length - 1] - time[0]) / 3)`. -/
def maxPeriodOf (data : LightCurveData) : ℝ :=
  min 20 ((data.time.getLastD 0 - data.time.headD 0) / 3)

/-- The 100 period-grid candidates of `calculateBLS`, each paired with the
depth and score `evaluatePeriod` assigns it:
`period_i = minPeriod + (maxPeriod - minPeriod) * i / numPeriods`. -/
def blsCandidates (data : LightCurveData) : List (ℝ × ℝ × ℝ) :=
  (List.range 100).map fun i : ℕ =>
    let period := 0.5 + (maxPeriodOf data - 0.5) * (i : ℝ) / 100
    let ds := evaluatePeriod data period
    (period, ds.1, ds.2)

/-- One iteration of the best-candidate loop of `calculateBLS`:
replace the running best iff the new score is strictly greater. -/
def blsStep (best cand : ℝ × ℝ × ℝ) : ℝ × ℝ × ℝ :=
  if cand.2.2 > best.2.2 then cand else best

/-- Embedding of `calculateBLS` (`dataProcessing.ts` lines 160-181):
fold the strict-improvement step over the period grid starting from
`(bestPeriod, bestDepth, bestScore) = (0, 0, 0)`. -/
def calculateBLS (data : LightCurveData) : ℝ × ℝ × ℝ :=
  (blsCandidates data).foldl blsStep (0, 0, 0)

/-- The phase array `(t % period) / period` used by `evaluatePeriod`. -/
def specPhases (data : LightCurveData) (period : ℝ) : List ℝ :=
  data.time.map fun t => jsRem t period / period

/-- The in-transit flux values of a candidate period: flux at samples whose
phase satisfies the in-transit window test. -/
def inTransitFlux (data : LightCurveData) (period : ℝ) : List ℝ :=
  (((specPhases data period).zip data.flux).filter fun p =>
    decide (inWindow p.1)).map Prod.snd

/-- The out-of-transit flux values of a candidate period. -/
def outTransitFlux (data : LightCurveData) (period : ℝ) : List ℝ :=
  (((specPhases data period).zip data.flux).filter fun p =>
    decide (¬ inWindow p.1)).map Prod.snd

/-- Arithmetic mean of a list, `reduce((a, b) => a + b, 0) / length`. -/
def listMean (l : List ℝ) : ℝ :=
  l.sum / l.length

/-- The depth formula of the spec: `1 - mean(in-transit)/mean(out-of-transit)`. -/
def specDepth (data : LightCurveData) (period : ℝ) : ℝ :=
  1 - listMean (inTransitFlux data period) / listMean (outTransitFlux data period)

/-- Embedding of `calculateMedian` (`dataProcessing.ts` lines 131-137).
On the empty array the source reads `sorted[-1]`, i.e. `undefined`, and
returns `NaN`; that case is `none` here. -/
def calculateMedian (arr : List ℝ) : Option ℝ :=
  let sorted := List.insertionSort (fun a b : ℝ => a ≤ b) arr
  let mid := sorted.length / 2
  if sorted.length = 0 then none
  else if sorted.length % 2 = 0 then some ((sorted.getD (mid - 1) 0 + sorted.getD mid 0) / 2)
  else some (sorted.getD mid 0)

/-- Result type of the detrender: the flux entries may be NaN (`none`). -/
structure DetrendResult where
  time : List ℝ
  flux : List (Option ℝ)

/-- Embedding of `detrendLightCurve` (`dataProcessing.ts` lines 116-129):
window size `min(101, floor(time.length / 10))`; each flux value is divided
by the median of its half-open local window `[i - w/2, i + w/2)` of the flux
array; a NaN median makes the output entry NaN. -/
def detrendLightCurve (data : LightCurveData) : DetrendResult :=
  let windowSize := min 101 (data.time.length / 10)
  ⟨data.time,
    (List.range data.flux.length).map fun i =>
      let start := i - windowSize / 2
      let stop := min data.flux.length (i + windowSize / 2)
      let window := (data.flux.drop start).take (stop - start)
      (calculateMedian window).map fun m => data.flux.getD i 0 / m⟩

/-- Embedding of `normalizeFlux`: `(f - mean) / (std || 1)`. -/
def normalizeFlux (flux : List ℝ) : List ℝ :=
  let mean := flux.sum / flux.length
  let std := Real.sqrt ((flux.map fun v => (v - mean) ^ 2).sum / (flux.length : ℝ))
  flux.map fun f => (f - mean) / (if std = 0 then 1 else std)

/-- Ordering on (phase, flux) pairs used by `foldLightCurve`:
the JS comparator `(a, b) => a.phase - b.phase`. -/
def phaseLE (a b : ℝ × ℝ) : Prop :=
  a.1 ≤ b.1

instance : DecidableRel phaseLE := fun a b => inferInstanceAs (Decidable (a.1 ≤ b.1))

instance : IsTotal (ℝ × ℝ) phaseLE := ⟨fun a b => le_total a.1 b.1⟩

instance : IsTrans (ℝ × ℝ) phaseLE := ⟨fun _ _ _ h1 h2 => le_trans h1 h2⟩

/-- Embedding of `foldLightCurve` (`dataProcessing.ts` lines 211-223):
phase `((t - epoch) % period) / period`, points sorted ascending by phase
(a stable sort, as JS `Array.prototype.sort` is). -/
def foldLightCurve (data : LightCurveData) (period : ℝ) (epoch : ℝ) : LightCurveData :=
  let phases := data.time.map fun t => jsRem (t - epoch) period / period
  let sortedPairs := List.insertionSort phaseLE (phases.zip data.flux)
  ⟨sortedPairs.map Prod.fst, sortedPairs.map Prod.snd⟩

/-- Embedding of `ExoplanetDetector.padOrTruncate`
(`exoplanetDetector.ts` lines 161-167): equal length returns the input,
longer input returns `slice(0, length)`, shorter is right-padded with zeros. -/
def padOrTruncate (arr : List ℝ) (len : ℕ) : List ℝ :=
  if arr.length = len then arr
  else if arr.length > len then arr.take len
  else arr ++ List.replicate (len - arr.length) 0

/-- Modelled from the spec: the shaping policy the spec states for
`padOrTruncate` — "truncate from the start if longer, else right-pad with
zeros" (truncate-head, zero-pad-tail).  Written for comparison with the
source's `padOrTruncate`. -/
def padOrTruncateSpec (arr : List ℝ) (len : ℕ) : List ℝ :=
  if arr.length > len then arr.drop (arr.length - len)
  else arr ++ List.replicate (len - arr.length) 0

/-- The statistics record returned by `extractFeatures`. -/
structure FeatureVector where
  mean : ℝ
  variance : ℝ
  std : ℝ
  min : ℝ
  max : ℝ
  range : ℝ
  skewness : ℝ
  kurtosis : ℝ

/-- Embedding of `extractFeatures` (`exoplanetDetector.ts` lines 269-292):
mean, population variance, `std = sqrt(variance)`, min/max via a full sort,
`range = max - min`, skewness and excess kurtosis of the flux array. -/
def extractFeatures (lc : LightCurveData) : FeatureVector :=
  let flux := lc.flux
  let mean := flux.sum / flux.length
  let variance := (flux.map fun v => (v - mean) ^ 2).sum / (flux.length : ℝ)
  let std := Real.sqrt variance
  let sorted := List.insertionSort (fun a b : ℝ => a ≤ b) flux
  let mn := sorted.getD 0 0
  let mx := sorted.getD (sorted.length - 1) 0
  let skewness := (flux.map fun v => ((v - mean) / std) ^ 3).sum / (flux.length : ℝ)
  let kurtosis := (flux.map fun v => ((v - mean) / std) ^ 4).sum / (flux.length : ℝ) - 3
  ⟨mean, variance, std, mn, mx, mx - mn, skewness, kurtosis⟩

/-- Loop body of `calculateSHAPValues`: entry `i` of the feature record is
attributed `(value - (baseline[key] || 0)) * Math.random() * 0.5`, where the
ambient random stream is modelled by `rand : ℕ → ℝ` (draw `i` is the call
made while processing entry `i`). -/
def shapGo (rand : ℕ → ℝ) (baselineValues : List (String × ℝ)) :
    ℕ → List (String × ℝ) → List (String × ℝ)
  | _, [] => []
  | i, kv :: rest =>
      (kv.1, (kv.2 - ((baselineValues.lookup kv.1).getD 0)) * rand i * 0.5) ::
        shapGo rand baselineValues (i + 1) rest

/-- Embedding of `calculateSHAPValues` (`exoplanetDetector.ts` lines 255-267).
The feature record is an insertion-ordered association list; `Math.random()`
is called once per feature inside the loop. -/
def calculateSHAPValues (features baselineValues : List (String × ℝ))
    (rand : ℕ → ℝ) : List (String × ℝ) :=
  shapGo rand baselineValues 0 features

/-- The metrics record returned by `evaluateModel`.  The source's field
names `precision` and `recall` are reserved tokens in Lean, hence the
`Val` suffix. -/
structure EvaluationMetrics where
  accuracy : ℝ
  precisionVal : ℝ
  recallVal : ℝ
  f1Score : ℝ
  rocAuc : ℝ

/-- The detector's state: the (opaque) TensorFlow model parameters, present
once built or loaded, and the constant version tag. -/
structure ExoplanetDetector (M : Type) where
  model : Option M
  modelVersion : String

/-- The confidence produced by `predict` for a model `m`: the abstract
forward pass applied to the normalised, fixed-length-shaped flux. -/
def predictConfidence {M : Type} (forward : M → List ℝ → ℝ) (m : M)
    (lc : LightCurveData) : ℝ :=
  forward m (padOrTruncate (normalizeFlux lc.flux) 200)

/-- Embedding of `calculateROCAUC` (`exoplanetDetector.ts` lines 229-252):
sort (label, prediction) pairs by prediction descending, walk them
accumulating the true-positive count at each negative; `0.5` if either
class is absent. -/
def calculateROCAUC (labels : List ℕ) (predictions : List ℝ) : ℝ :=
  let pairs := List.insertionSort (fun a b : ℕ × ℝ => b.2 ≤ a.2) (labels.zip predictions)
  let positives := (labels.filter fun l => decide (l = 1)).length
  let negatives := labels.length - positives
  if positives = 0 ∨ negatives = 0 then 0.5
  else
    let walk := pairs.foldl
      (fun (acc : ℕ × ℕ × ℕ) p =>
        if p.1 = 1 then (acc.1 + 1, acc.2.1, acc.2.2)
        else (acc.1, acc.2.1 + 1, acc.2.2 + acc.1))
      (0, 0, 0)
    (walk.2.2 : ℝ) / ((positives : ℝ) * (negatives : ℝ))

/-- Embedding of `evaluateModel` (`exoplanetDetector.ts` lines 188-227).
With no built or loaded model it throws `Model not initialized`; otherwise
it accumulates the confusion counts (TP, TN, FP, FN) over the test set and
returns the metrics record. -/
def evaluateModel {M : Type} (forward : M → List ℝ → ℝ) (d : ExoplanetDetector M)
    (testData : List LightCurveData) (testLabels : List ℕ) :
    Except String EvaluationMetrics :=
  match d.model with
  | none => Except.error "Model not initialized"
  | some m =>
    let predictions := testData.map fun lc => predictConfidence forward m lc
    let counts := (predictions.zip testLabels).foldl
      (fun (acc : ℕ × ℕ × ℕ × ℕ) p =>
        let predicted : ℕ := if p.1 > 0.5 then 1 else 0
        if predicted = 1 ∧ p.2 = 1 then (acc.1 + 1, acc.2.1, acc.2.2.1, acc.2.2.2)
        else if predicted = 0 ∧ p.2 = 0 then (acc.1, acc.2.1 + 1, acc.2.2.1, acc.2.2.2)
        else if predicted = 1 ∧ p.2 = 0 then (acc.1, acc.2.1, acc.2.2.1 + 1, acc.2.2.2)
        else if predicted = 0 ∧ p.2 = 1 then (acc.1, acc.2.1, acc.2.2.1, acc.2.2.2 + 1)
        else acc)
      (0, 0, 0, 0)
    let tp := counts.1
    let tn := counts.2.1
    let fp := counts.2.2.1
    let fnCount := counts.2.2.2
    let accuracy := ((tp + tn : ℕ) : ℝ) / (testData.length : ℝ)
    let precisionVal := (tp : ℝ) / ((tp + fp : ℕ) : ℝ)
    let recallVal := (tp : ℝ) / ((tp + fnCount : ℕ) : ℝ)
    let f1Score := 2 * (precisionVal * recallVal) / (precisionVal + recallVal)
    let rocAuc := calculateROCAUC testLabels predictions
    Except.ok ⟨accuracy, precisionVal, recallVal, f1Score, rocAuc⟩

/-- Embedding of `saveModel` (`exoplanetDetector.ts` lines 169-173):
`if (this.model) await this.model.save(path)`.  The result records the
whole-blob writes performed against the key-value store; with no model the
promise resolves having written nothing. -/
def saveModel {M : Type} (d : ExoplanetDetector M) (path : String) :
    Except String (List (String × M)) :=
  match d.model with
  | none => Except.ok []
  | some m => Except.ok [(path, m)]


/-! Helper lemmas about the embedded definitions. -/

/-- The push-into-two-arrays loop of `evaluatePeriod` computes the two
filters of the (phase, flux) pair list. -/
lemma blsPartition_eq (pairs : List (ℝ × ℝ)) (a b : List ℝ) :
    pairs.foldl
      (fun acc pf =>
        if inWindow pf.1 then (acc.1 ++ [pf.2], acc.2) else (acc.1, acc.2 ++ [pf.2]))
      (a, b) =
    (a ++ (pairs.filter fun p => decide (inWindow p.1)).map Prod.snd,
     b ++ (pairs.filter fun p => decide (¬ inWindow p.1)).map Prod.snd) := by
  induction pairs generalizing a b with
  | nil => simp
  | cons pf rest ih =>
      by_cases h : inWindow pf.1
      · simp [List.foldl_cons, if_pos h, ih, h, List.filter_cons]
      · simp [List.foldl_cons, if_neg h, ih, h, List.filter_cons]

/-- The best-candidate fold never decreases the running best score. -/
lemma foldl_blsStep_init_le (l : List (ℝ × ℝ × ℝ)) (b : ℝ × ℝ × ℝ) :
    b.2.2 ≤ (l.foldl blsStep b).2.2 := by
  induction l generalizing b with
  | nil => exact le_refl _
  | cons c rest ih =>
      refine le_trans ?_ (ih (blsStep b c))
      unfold blsStep
      by_cases h : c.2.2 > b.2.2
      · rw [if_pos h]; exact le_of_lt h
      · rw [if_neg h]

/-- The best-candidate fold dominates the score of every list element. -/
lemma foldl_blsStep_mem_le (l : List (ℝ × ℝ × ℝ)) (b : ℝ × ℝ × ℝ) :
    ∀ c ∈ l, c.2.2 ≤ (l.foldl blsStep b).2.2 := by
  induction l generalizing b with
  | nil => intro c hc; exact absurd hc (List.not_mem_nil c)
  | cons d rest ih =>
      intro c hc
      rcases List.mem_cons.mp hc with h | h
      · subst h
        refine le_trans ?_ (foldl_blsStep_init_le rest (blsStep b c))
        unfold blsStep
        by_cases h2 : c.2.2 > b.2.2
        · rw [if_pos h2]
        · rw [if_neg h2]; exact le_of_not_lt h2
      · exact ih (blsStep b d) c h

/-- Characterisation of the best-candidate fold: either no candidate beats
the initial score and the initial triple is returned, or the result is the
first list element that strictly beats the initial score and every earlier
element. -/
lemma foldl_blsStep_cases (l : List (ℝ × ℝ × ℝ)) (b : ℝ × ℝ × ℝ) :
    (l.foldl blsStep b = b ∧ ∀ c ∈ l, c.2.2 ≤ b.2.2) ∨
    (∃ i, ∃ h : i < l.length, l.foldl blsStep b = l.get ⟨i, h⟩ ∧
      b.2.2 < (l.get ⟨i, h⟩).2.2 ∧
      ∀ j, ∀ hj : j < i, (l.get ⟨j, Nat.lt_trans hj h⟩).2.2 < (l.get ⟨i, h⟩).2.2) := by
  induction l generalizing b with
  | nil => left; exact ⟨rfl, by intro c hc; exact absurd hc (List.not_mem_nil c)⟩
  | cons d rest ih =>
      by_cases h1 : d.2.2 > b.2.2
      · have hstep : List.foldl blsStep b (d :: rest) = List.foldl blsStep d rest := by
          simp [List.foldl_cons, blsStep, if_pos h1]
        rcases ih d with ⟨heq, hall⟩ | ⟨i, hi, heq, hlt, hprev⟩
        · right
          refine ⟨0, by simp, ?_, ?_, ?_⟩
          · rw [hstep, heq]; rfl
          · simpa using h1
          · intro j hj; exact absurd hj (Nat.not_lt_zero j)
        · right
          refine ⟨i + 1, by simpa using Nat.succ_lt_succ hi, ?_, ?_, ?_⟩
          · rw [hstep, heq]; rfl
          · exact lt_trans h1 (by simpa using hlt)
          · intro j hj
            cases j with
            | zero => simpa using hlt
            | succ k =>
                have hk : k < i := Nat.lt_of_succ_lt_succ hj
                simpa using hprev k hk
      · have hstep : List.foldl blsStep b (d :: rest) = List.foldl blsStep b rest := by
          simp [List.foldl_cons, blsStep, if_neg h1]
        rcases ih b with ⟨heq, hall⟩ | ⟨i, hi, heq, hlt, hprev⟩
        · left
          constructor
          · rw [hstep, heq]
          · intro c hc
            rcases List.mem_cons.mp hc with hcd | hcr
            · subst hcd; exact le_of_not_lt h1
            · exact hall c hcr
        · right
          refine ⟨i + 1, by simpa using Nat.succ_lt_succ hi, ?_, ?_, ?_⟩
          · rw [hstep, heq]; rfl
          · exact hlt
          · intro j hj
            cases j with
            | zero => simpa using lt_of_le_of_lt (le_of_not_lt h1) hlt
            | succ k =>
                have hk : k < i := Nat.lt_of_succ_lt_succ hj
                simpa using hprev k hk

/-- The JS remainder of a non-negative dividend by a positive divisor lies
in `[0, p)`. -/
lemma jsRem_bounds {x p : ℝ} (hx : 0 ≤ x) (hp : 0 < p) :
    0 ≤ jsRem x p ∧ jsRem x p < p := by
  have hq : 0 ≤ x / p := div_nonneg hx hp.le
  have hrw : jsRem x p = p * Int.fract (x / p) := by
    unfold jsRem jsTrunc
    rw [if_pos hq, Int.fract]
    field_simp
  constructor
  · rw [hrw]; exact mul_nonneg hp.le (Int.fract_nonneg _)
  · rw [hrw]
    calc p * Int.fract (x / p) < p * 1 :=
          mul_lt_mul_of_pos_left (Int.fract_lt_one _) hp
      _ = p := mul_one p

/-- A real in `[0, 1)` has floor zero. -/
lemma floor_small {x : ℝ} (h0 : 0 ≤ x) (h1 : x < 1) : ⌊x⌋ = 0 :=
  Int.floor_eq_zero_iff.mpr ⟨h0, h1⟩

/-- The JS remainder is the identity below the (positive) divisor. -/
lemma jsRem_small {x p : ℝ} (h0 : 0 ≤ x) (hp : 0 < p) (h1 : x < p) : jsRem x p = x := by
  unfold jsRem jsTrunc
  rw [if_pos (div_nonneg h0 hp.le), floor_small (div_nonneg h0 hp.le) ((div_lt_one hp).mpr h1)]
  simp

/-- `evaluatePeriod` in terms of the filter-based in/out-of-transit lists,
the mean-ratio depth and the `|depth| * sqrt count` score. -/
lemma evaluatePeriod_eq_spec (data : LightCurveData) (period : ℝ) :
    evaluatePeriod data period =
      if inTransitFlux data period = [] ∨ outTransitFlux data period = [] then (0, 0)
      else (specDepth data period,
        |specDepth data period| * Real.sqrt ((inTransitFlux data period).length : ℝ)) := by
  unfold evaluatePeriod
  dsimp only
  rw [show (data.time.map fun t => jsRem t period / period) = specPhases data period from rfl]
  rw [blsPartition_eq ((specPhases data period).zip data.flux) [] []]
  simp only [List.nil_append]
  rw [show ((List.filter (fun p => decide (inWindow p.1))
      ((specPhases data period).zip data.flux)).map Prod.snd) = inTransitFlux data period from rfl]
  rw [show ((List.filter (fun p => decide (¬ inWindow p.1))
      ((specPhases data period).zip data.flux)).map Prod.snd) = outTransitFlux data period from rfl]
  simp only [List.length_eq_zero]
  by_cases h : inTransitFlux data period = [] ∨ outTransitFlux data period = []
  · rw [if_pos h, if_pos h]
  · rw [if_neg h, if_neg h]
    unfold specDepth listMean
    rfl

/-- The period grid has exactly 100 candidates. -/
lemma blsCandidates_length (data : LightCurveData) : (blsCandidates data).length = 100 := by
  unfold blsCandidates
  rw [List.length_map, List.length_range]

/-- The `i`-th grid candidate in closed form. -/
lemma blsCandidates_get (data : LightCurveData) (i : ℕ)
    (h : i < (blsCandidates data).length) :
    (blsCandidates data).get ⟨i, h⟩ =
      (0.5 + (maxPeriodOf data - 0.5) * (i : ℝ) / 100,
       (evaluatePeriod data (0.5 + (maxPeriodOf data - 0.5) * (i : ℝ) / 100)).1,
       (evaluatePeriod data (0.5 + (maxPeriodOf data - 0.5) * (i : ℝ) / 100)).2) := by
  unfold blsCandidates
  simp only [List.get_eq_getElem, List.getElem_map, List.getElem_range]

/-- Every grid candidate is the image of some index `i < 100`. -/
lemma mem_blsCandidates (data : LightCurveData) {c : ℝ × ℝ × ℝ}
    (hc : c ∈ blsCandidates data) :
    ∃ i : ℕ, i < 100 ∧
      c = (0.5 + (maxPeriodOf data - 0.5) * (i : ℝ) / 100,
        (evaluatePeriod data (0.5 + (maxPeriodOf data - 0.5) * (i : ℝ) / 100)).1,
        (evaluatePeriod data (0.5 + (maxPeriodOf data - 0.5) * (i : ℝ) / 100)).2) := by
  obtain ⟨⟨i, hi⟩, hget⟩ := List.mem_iff_get.mp hc
  have hi100 : i < 100 := by
    have h2 := hi
    rwa [blsCandidates_length] at h2
  refine ⟨i, hi100, ?_⟩
  rw [← hget, blsCandidates_get]

/-- A list of ones sums to its length. -/
lemma sum_of_ones {l : List ℝ} (h : ∀ x ∈ l, x = 1) : l.sum = l.length := by
  induction l with
  | nil => simp
  | cons a t ih =>
      have ha : a = 1 := h a (List.mem_cons_self a t)
      have ht := ih fun x hx => h x (List.mem_cons_of_mem a hx)
      simp [List.sum_cons, ha, ht]
      ring

/-- On an all-ones flux array every candidate period scores zero: either a
partition is empty, or both means are one and the depth vanishes. -/
lemma evaluatePeriod_const_one (data : LightCurveData)
    (hflux : ∀ f ∈ data.flux, f = 1) (period : ℝ) :
    (evaluatePeriod data period).2 = 0 := by
  rw [evaluatePeriod_eq_spec]
  by_cases h : inTransitFlux data period = [] ∨ outTransitFlux data period = []
  · rw [if_pos h]
  · rw [if_neg h]
    push_neg at h
    obtain ⟨h1, h2⟩ := h
    have hin : ∀ x ∈ inTransitFlux data period, x = 1 := by
      intro x hx
      unfold inTransitFlux at hx
      obtain ⟨p, hp, rfl⟩ := List.mem_map.mp hx
      exact hflux _ ((List.of_mem_zip (List.mem_of_mem_filter hp)).2)
    have hout : ∀ x ∈ outTransitFlux data period, x = 1 := by
      intro x hx
      unfold outTransitFlux at hx
      obtain ⟨p, hp, rfl⟩ := List.mem_map.mp hx
      exact hflux _ ((List.of_mem_zip (List.mem_of_mem_filter hp)).2)
    have hd : specDepth data period = 0 := by
      unfold specDepth listMean
      rw [sum_of_ones hin, sum_of_ones hout]
      have l1 : ((inTransitFlux data period).length : ℝ) ≠ 0 := by
        simpa [List.length_eq_zero] using h1
      have l2 : ((outTransitFlux data period).length : ℝ) ≠ 0 := by
        simpa [List.length_eq_zero] using h2
      field_simp
    simp [hd]

/-- The SHAP loop in closed form: entry `i` is scaled by draw `i` of the
random stream, halved. -/
lemma shapGo_eq (bl : List (String × ℝ)) (rand : ℕ → ℝ) :
    ∀ (fs : List (String × ℝ)) (i : ℕ),
      shapGo rand bl i fs =
        (fs.zip ((List.range fs.length).map fun j => rand (i + j) * 0.5)).map
          fun p => (p.1.1, (p.1.2 - ((bl.lookup p.1.1).getD 0)) * p.2) := by
  intro fs
  induction fs with
  | nil => intro i; rfl
  | cons kv rest ih =>
      intro i
      have hmap : (List.range (kv :: rest).length).map (fun j => rand (i + j) * 0.5) =
          (rand i * 0.5) :: ((List.range rest.length).map fun j => rand (i + 1 + j) * 0.5) := by
        rw [List.length_cons, List.range_succ_eq_map, List.map_cons, List.map_map]
        refine congr_arg₂ List.cons (by simp) ?_
        apply List.map_congr_left
        intro j hj
        have hh : i + (j + 1) = i + 1 + j := by omega
        simp [Function.comp_apply, Nat.succ_eq_add_one, hh]
      rw [hmap, List.zip_cons_cons, List.map_cons]
      rw [show shapGo rand bl i (kv :: rest) =
        (kv.1, (kv.2 - ((bl.lookup kv.1).getD 0)) * rand i * 0.5) ::
          shapGo rand bl (i + 1) rest from rfl]
      rw [ih (i + 1)]
      congr 1
      rw [mul_assoc]

/-! Claim theorems. -/

/-- C1: for every light curve, `calculateBLS` evaluates each grid candidate
by classifying a sample as in-transit iff its phase `(t mod period)/period`
is `< 0.1` or `> 0.9`; when both partitions are non-empty the candidate's
depth is `1 - mean(in)/mean(out)` and its score `|depth| * sqrt(inCount)`,
otherwise the candidate scores `(0, 0)`; the returned triple is the first
candidate attaining the strictly greatest score, and `(0, 0, 0)` when no
candidate scores above `0`. -/
theorem calculateBLS_matches_spec (data : LightCurveData) :
    (∀ period : ℝ,
      evaluatePeriod data period =
        if inTransitFlux data period = [] ∨ outTransitFlux data period = [] then (0, 0)
        else (specDepth data period,
          |specDepth data period| * Real.sqrt ((inTransitFlux data period).length : ℝ))) ∧
    ((calculateBLS data = (0, 0, 0) ∧ ∀ c ∈ blsCandidates data, c.2.2 ≤ 0) ∨
     ∃ i, ∃ h : i < (blsCandidates data).length,
       calculateBLS data = (blsCandidates data).get ⟨i, h⟩ ∧
       0 < ((blsCandidates data).get ⟨i, h⟩).2.2 ∧
       (∀ c ∈ blsCandidates data, c.2.2 ≤ ((blsCandidates data).get ⟨i, h⟩).2.2) ∧
       ∀ j, ∀ hj : j < i,
         ((blsCandidates data).get ⟨j, Nat.lt_trans hj h⟩).2.2 <
           ((blsCandidates data).get ⟨i, h⟩).2.2) := by
  refine ⟨fun period => evaluatePeriod_eq_spec data period, ?_⟩
  rcases foldl_blsStep_cases (blsCandidates data) (0, 0, 0) with
    ⟨heq, hall⟩ | ⟨i, h, heq, hlt, hprev⟩
  · left; exact ⟨heq, hall⟩
  · right
    refine ⟨i, h, heq, hlt, ?_, hprev⟩
    intro c hc
    have h1 : c.2.2 ≤ (calculateBLS data).2.2 := foldl_blsStep_mem_le _ _ c hc
    unfold calculateBLS at h1
    rwa [heq] at h1

/-- C2 counterexample: the light curve with times `[0, 0.05, 0.3]` and
flux `[0.5, 1, 1]` has `maxPeriod = 0.1 < minPeriod = 0.5`, yet
`calculateBLS` does not report score `0`: candidate `0` (period `0.5`)
scores `0.5`, so the best score is non-zero. -/
theorem calculateBLS_clip_counterexample :
    maxPeriodOf ⟨[0, 0.05, 0.3], [0.5, 1, 1]⟩ < 0.5 ∧
    (calculateBLS ⟨[0, 0.05, 0.3], [0.5, 1, 1]⟩).2.2 ≠ 0 := by
  have hmax : maxPeriodOf ⟨[0, 0.05, 0.3], [0.5, 1, 1]⟩ = 0.1 := by
    unfold maxPeriodOf
    simp [List.getLastD, List.headD]
    norm_num
  have heval : (evaluatePeriod ⟨[0, 0.05, 0.3], [0.5, 1, 1]⟩ 0.5).2 = 0.5 := by
    unfold evaluatePeriod
    dsimp only
    have e1 : jsRem (0:ℝ) 0.5 = 0 := jsRem_small le_rfl (by norm_num) (by norm_num)
    have e2 : jsRem (0.05:ℝ) 0.5 = 0.05 := jsRem_small (by norm_num) (by norm_num) (by norm_num)
    have e3 : jsRem (0.3:ℝ) 0.5 = 0.3 := jsRem_small (by norm_num) (by norm_num) (by norm_num)
    simp only [List.map_cons, List.map_nil, e1, e2, e3, List.zip_cons_cons, List.zip_nil_right,
      List.foldl_cons, List.foldl_nil]
    rw [if_pos (by norm_num [inWindow] : inWindow ((0:ℝ)/0.5))]
    rw [if_neg (by norm_num [inWindow] : ¬ inWindow ((0.05:ℝ)/0.5))]
    rw [if_neg (by norm_num [inWindow] : ¬ inWindow ((0.3:ℝ)/0.5))]
    norm_num [Real.sqrt_one]
  constructor
  · rw [hmax]; norm_num
  · have hlen : 0 < (blsCandidates ⟨[0, 0.05, 0.3], [0.5, 1, 1]⟩).length := by
      rw [blsCandidates_length]; norm_num
    have hmem := List.get_mem (blsCandidates ⟨[0, 0.05, 0.3], [0.5, 1, 1]⟩) 0 hlen
    have hle := foldl_blsStep_mem_le (blsCandidates ⟨[0, 0.05, 0.3], [0.5, 1, 1]⟩) (0, 0, 0) _ hmem
    rw [blsCandidates_get _ 0 hlen] at hle
    have hper : (0.5 + (maxPeriodOf ⟨[0, 0.05, 0.3], [0.5, 1, 1]⟩ - 0.5) * ((0:ℕ):ℝ)/100) = 0.5 := by
      norm_num
    rw [hper] at hle
    have hle2 : (evaluatePeriod ⟨[0, 0.05, 0.3], [0.5, 1, 1]⟩ 0.5).2 ≤
        (calculateBLS ⟨[0, 0.05, 0.3], [0.5, 1, 1]⟩).2.2 := hle
    rw [heval] at hle2
    have hpos : (0:ℝ) < (calculateBLS ⟨[0, 0.05, 0.3], [0.5, 1, 1]⟩).2.2 :=
      lt_of_lt_of_le (by norm_num) hle2
    exact ne_of_gt hpos

/-- C2 amended: when `maxPeriod < minPeriod = 0.5`, `calculateBLS` applies
no rejection or clipping — every grid candidate period is `≤ 0.5`
(the grid descends from `minPeriod`), candidate `0` is still evaluated at
exactly `minPeriod`, and the returned best score dominates its score. -/
theorem calculateBLS_no_clip (data : LightCurveData) (h : maxPeriodOf data < 0.5) :
    (∀ c ∈ blsCandidates data, c.1 ≤ 0.5) ∧
    (evaluatePeriod data 0.5).2 ≤ (calculateBLS data).2.2 := by
  constructor
  · intro c hc
    obtain ⟨i, hi, rfl⟩ := mem_blsCandidates data hc
    show 0.5 + (maxPeriodOf data - 0.5) * (i:ℝ) / 100 ≤ 0.5
    have hnn : (0:ℝ) ≤ (i:ℝ) := Nat.cast_nonneg i
    nlinarith [mul_nonneg (le_of_lt (by linarith : (0:ℝ) < 0.5 - maxPeriodOf data)) hnn]
  · have hlen : 0 < (blsCandidates data).length := by
      rw [blsCandidates_length]; norm_num
    have hmem := List.get_mem (blsCandidates data) 0 hlen
    have hle := foldl_blsStep_mem_le (blsCandidates data) (0, 0, 0) _ hmem
    rw [blsCandidates_get data 0 hlen] at hle
    have hper : (0.5 + (maxPeriodOf data - 0.5) * ((0:ℕ):ℝ)/100) = 0.5 := by norm_num
    rw [hper] at hle
    exact hle

/-- C2 amended, witness: the data of the counterexample satisfies the
hypothesis, and the conclusion is obtained from the amended theorem. -/
theorem calculateBLS_no_clip_witness :
    maxPeriodOf ⟨[0, 0.05, 0.3], [0.5, 1, 1]⟩ < 0.5 ∧
    ((∀ c ∈ blsCandidates ⟨[0, 0.05, 0.3], [0.5, 1, 1]⟩, c.1 ≤ 0.5) ∧
     (evaluatePeriod ⟨[0, 0.05, 0.3], [0.5, 1, 1]⟩ 0.5).2 ≤
       (calculateBLS ⟨[0, 0.05, 0.3], [0.5, 1, 1]⟩).2.2) := by
  have hm : maxPeriodOf ⟨[0, 0.05, 0.3], [0.5, 1, 1]⟩ < 0.5 := by
    have hmax : maxPeriodOf ⟨[0, 0.05, 0.3], [0.5, 1, 1]⟩ = 0.1 := by
      unfold maxPeriodOf
      simp [List.getLastD, List.headD]
      norm_num
    rw [hmax]; norm_num
  exact ⟨hm, calculateBLS_no_clip ⟨[0, 0.05, 0.3], [0.5, 1, 1]⟩ hm⟩

/-- C3: on any flux series of length `1 ≤ N < 20` the computed window size
is `0` or `1`, the local window `[i, i)` is empty, and the source divides
by the median of an empty array — `NaN`.  At the failing input
(time `[0]`, flux `[2]`) the output flux is `[NaN]`, not `≈` the input
and with no empty-window median treated as `1.0`. -/
theorem detrendLightCurve_nan_failing_input :
    detrendLightCurve ⟨[0], [2]⟩ = ⟨[0], [none]⟩ := by
  unfold detrendLightCurve calculateMedian
  norm_num [List.range_succ]

/-- C4 counterexample: on `[1, 2, 3]` with target length `2` the source
keeps the first two elements (`slice(0, 2) = [1, 2]`) whereas the spec's
truncate-from-the-start policy keeps the last two (`[2, 3]`). -/
theorem padOrTruncate_head_counterexample :
    padOrTruncate [1, 2, 3] 2 ≠ padOrTruncateSpec [1, 2, 3] 2 := by
  unfold padOrTruncate padOrTruncateSpec
  norm_num

/-- C4 amended: `padOrTruncate` always returns exactly `len` elements;
a longer input is truncated from the END (the first `len` elements are
kept) and a shorter one is right-padded with zeros:
`result = take len ++ replicate (len - N) 0`. -/
theorem padOrTruncate_shape (arr : List ℝ) (len : ℕ) :
    padOrTruncate arr len = arr.take len ++ List.replicate (len - arr.length) 0 ∧
    (padOrTruncate arr len).length = len := by
  have h1 : padOrTruncate arr len = arr.take len ++ List.replicate (len - arr.length) 0 := by
    unfold padOrTruncate
    by_cases he : arr.length = len
    · rw [if_pos he, ← he]
      simp [List.take_length]
    · rw [if_neg he]
      by_cases hgt : arr.length > len
      · rw [if_pos hgt]
        simp [Nat.sub_eq_zero_of_le (le_of_lt hgt)]
      · rw [if_neg hgt, List.take_of_length_le (le_of_not_lt hgt)]
  refine ⟨h1, ?_⟩
  rw [h1]
  simp [List.length_append, List.length_take, List.length_replicate]
  omega

/-- C5 counterexample: with period `2 > 0` and epoch `1`, the single sample
at time `0` gets phase `((0 - 1) % 2) / 2 = -0.5` (the JS remainder keeps
the dividend's sign), which does not lie in `[0, 1)`. -/
theorem foldLightCurve_phase_counterexample :
    (0:ℝ) < 2 ∧ ∃ p ∈ (foldLightCurve ⟨[0], [1]⟩ 2 1).time, p < 0 := by
  refine ⟨by norm_num, ?_⟩
  have hceil : ⌈((0:ℝ) - 1) / 2⌉ = 0 := by
    rw [Int.ceil_eq_zero_iff]
    constructor <;> norm_num
  have hrem : jsRem ((0:ℝ) - 1) 2 = -1 := by
    unfold jsRem jsTrunc
    rw [if_neg (by norm_num : ¬ (0:ℝ) ≤ ((0:ℝ) - 1) / 2), hceil]
    norm_num
  unfold foldLightCurve
  dsimp only
  simp only [List.map_cons, List.map_nil, List.zip_cons_cons, List.zip_nil_right, hrem]
  refine ⟨(-1) / 2, ?_, by norm_num⟩
  simp [List.insertionSort]

/-- C5 amended: for every light curve, every period `> 0`, and every epoch
that does not exceed any sample time (so `t - epoch ≥ 0`), the phases
output by `foldLightCurve` are non-decreasing and each lies in `[0, 1)`. -/
theorem foldLightCurve_phases_sorted_bounded (data : LightCurveData) (period epoch : ℝ)
    (hp : 0 < period) (he : ∀ t ∈ data.time, epoch ≤ t) :
    List.Sorted (· ≤ ·) (foldLightCurve data period epoch).time ∧
    ∀ p ∈ (foldLightCurve data period epoch).time, 0 ≤ p ∧ p < 1 := by
  unfold foldLightCurve
  dsimp only
  constructor
  · have hs := List.sorted_insertionSort phaseLE
      ((data.time.map fun t => jsRem (t - epoch) period / period).zip data.flux)
    exact List.Pairwise.map Prod.fst (fun a b hab => hab) hs
  · intro p hp2
    obtain ⟨q, hq, rfl⟩ := List.mem_map.mp hp2
    obtain ⟨q1, q2⟩ := q
    have hq2 : (q1, q2) ∈
        (data.time.map fun t => jsRem (t - epoch) period / period).zip data.flux :=
      (List.perm_insertionSort phaseLE _).subset hq
    have hq3 : q1 ∈ data.time.map fun t => jsRem (t - epoch) period / period :=
      (List.of_mem_zip hq2).1
    obtain ⟨t, ht, hqt⟩ := List.mem_map.mp hq3
    have hx : 0 ≤ t - epoch := by linarith [he t ht]
    have hb := jsRem_bounds hx hp
    constructor
    · rw [← hqt]
      exact div_nonneg hb.1 hp.le
    · rw [← hqt]
      exact (div_lt_one hp).mpr hb.2

/-- C5 amended, witness: curve `([0, 1], [1, 1])`, period `2`, epoch `0`. -/
theorem foldLightCurve_phases_sorted_bounded_witness :
    (0:ℝ) < 2 ∧ (∀ t ∈ (LightCurveData.mk [0, 1] [1, 1]).time, (0:ℝ) ≤ t) ∧
    (List.Sorted (· ≤ ·) (foldLightCurve ⟨[0, 1], [1, 1]⟩ 2 0).time ∧
     ∀ p ∈ (foldLightCurve ⟨[0, 1], [1, 1]⟩ 2 0).time, 0 ≤ p ∧ p < 1) := by
  have hp : (0:ℝ) < 2 := by norm_num
  have he : ∀ t ∈ (LightCurveData.mk [0, 1] [1, 1]).time, (0:ℝ) ≤ t := by
    intro t ht
    fin_cases ht <;> norm_num
  exact ⟨hp, he, foldLightCurve_phases_sorted_bounded ⟨[0, 1], [1, 1]⟩ 2 0 hp he⟩

/-- C6: for every non-empty flux series the extracted features satisfy
`range = max - min` exactly, `std = sqrt variance`, `variance ≥ 0`, and the
variance is the population variance (division by `N`, not `N - 1`). -/
theorem extractFeatures_invariants (lc : LightCurveData) (h : lc.flux ≠ []) :
    (extractFeatures lc).range = (extractFeatures lc).max - (extractFeatures lc).min ∧
    (extractFeatures lc).std = Real.sqrt (extractFeatures lc).variance ∧
    0 ≤ (extractFeatures lc).variance ∧
    (extractFeatures lc).variance =
      (lc.flux.map fun v => (v - (extractFeatures lc).mean) ^ 2).sum / (lc.flux.length : ℝ) := by
  refine ⟨rfl, rfl, ?_, rfl⟩
  unfold extractFeatures
  dsimp only
  apply div_nonneg
  · apply List.sum_nonneg
    intro x hx
    obtain ⟨v, hv, rfl⟩ := List.mem_map.mp hx
    positivity
  · positivity

/-- C6 witness: the invariants at the concrete curve `([0, 1], [1, 2])`. -/
theorem extractFeatures_invariants_witness :
    (LightCurveData.mk [0, 1] [1, 2]).flux ≠ [] ∧
    ((extractFeatures ⟨[0, 1], [1, 2]⟩).range =
        (extractFeatures ⟨[0, 1], [1, 2]⟩).max - (extractFeatures ⟨[0, 1], [1, 2]⟩).min ∧
     (extractFeatures ⟨[0, 1], [1, 2]⟩).std =
        Real.sqrt (extractFeatures ⟨[0, 1], [1, 2]⟩).variance ∧
     0 ≤ (extractFeatures ⟨[0, 1], [1, 2]⟩).variance ∧
     (extractFeatures ⟨[0, 1], [1, 2]⟩).variance =
       (([1, 2] : List ℝ).map
           fun v => (v - (extractFeatures ⟨[0, 1], [1, 2]⟩).mean) ^ 2).sum /
         (([1, 2] : List ℝ).length : ℝ)) :=
  ⟨by simp, extractFeatures_invariants ⟨[0, 1], [1, 2]⟩ (by simp)⟩

/-- C7 counterexample: on the constant-flux curve `([0, 3], [1, 1])` every
candidate scores `0`, so `calculateBLS` returns the sentinel `(0, 0, 0)`,
whose period is not `> 0`. -/
theorem calculateBLS_zero_period_counterexample :
    calculateBLS ⟨[0, 3], [1, 1]⟩ = (0, 0, 0) ∧
    ¬ 0 < (calculateBLS ⟨[0, 3], [1, 1]⟩).1 := by
  have hflux : ∀ f ∈ (LightCurveData.mk [0, 3] [1, 1]).flux, f = 1 := by
    intro f hf
    fin_cases hf <;> norm_num
  have hall : ∀ c ∈ blsCandidates ⟨[0, 3], [1, 1]⟩, c.2.2 ≤ 0 := by
    intro c hc
    obtain ⟨i, hi, rfl⟩ := mem_blsCandidates _ hc
    exact le_of_eq (evaluatePeriod_const_one _ hflux _)
  have hres : calculateBLS ⟨[0, 3], [1, 1]⟩ = (0, 0, 0) := by
    rcases foldl_blsStep_cases (blsCandidates ⟨[0, 3], [1, 1]⟩) (0, 0, 0) with
      ⟨heq, _⟩ | ⟨i, hlen, heq, hlt, _⟩
    · exact heq
    · exfalso
      have hle := hall _ (List.get_mem _ i hlen)
      have h0 : ((0, 0, 0) : ℝ × ℝ × ℝ).2.2 = 0 := rfl
      rw [h0] at hlt
      linarith
  refine ⟨hres, ?_⟩
  rw [hres]
  norm_num

/-- C7 amended: for every curve whose first time does not exceed its last,
`calculateBLS` returns a score `≥ 0`, and a period `> 0` whenever the score
is `> 0` (the all-zero sentinel covers the remaining case). -/
theorem calculateBLS_result_invariant (data : LightCurveData)
    (h : data.time.headD 0 ≤ data.time.getLastD 0) :
    0 ≤ (calculateBLS data).2.2 ∧
    (0 < (calculateBLS data).2.2 → 0 < (calculateBLS data).1) := by
  have hmax : 0 ≤ maxPeriodOf data := by
    unfold maxPeriodOf
    exact le_min (by norm_num) (div_nonneg (by linarith) (by norm_num))
  constructor
  · exact foldl_blsStep_init_le (blsCandidates data) (0, 0, 0)
  · intro hs
    rcases foldl_blsStep_cases (blsCandidates data) (0, 0, 0) with
      ⟨heq, _⟩ | ⟨i, hlen, heq, hlt, _⟩
    · exfalso
      unfold calculateBLS at hs
      rw [heq] at hs
      norm_num at hs
    · unfold calculateBLS
      rw [heq, blsCandidates_get data i hlen]
      show 0 < 0.5 + (maxPeriodOf data - 0.5) * (i:ℝ) / 100
      have hi : (i:ℝ) ≤ 99 := by
        have h100 : i < 100 := by rwa [blsCandidates_length] at hlen
        exact_mod_cast Nat.le_of_lt_succ h100
      have hnn : (0:ℝ) ≤ (i:ℝ) := Nat.cast_nonneg i
      nlinarith [mul_nonneg hmax hnn]

/-- C7 amended, witness: the invariant at the curve `([0, 3], [1, 1])`. -/
theorem calculateBLS_result_invariant_witness :
    (LightCurveData.mk [0, 3] [1, 1]).time.headD 0 ≤
        (LightCurveData.mk [0, 3] [1, 1]).time.getLastD 0 ∧
    (0 ≤ (calculateBLS ⟨[0, 3], [1, 1]⟩).2.2 ∧
     (0 < (calculateBLS ⟨[0, 3], [1, 1]⟩).2.2 → 0 < (calculateBLS ⟨[0, 3], [1, 1]⟩).1)) := by
  have h : (LightCurveData.mk [0, 3] [1, 1]).time.headD 0 ≤
      (LightCurveData.mk [0, 3] [1, 1]).time.getLastD 0 := by
    simp [List.getLastD, List.headD]
  exact ⟨h, calculateBLS_result_invariant ⟨[0, 3], [1, 1]⟩ h⟩

/-- C8 counterexample: with features `a` and `b` both `1` over an empty
baseline and a random stream drawing `0.2` then `0.8`, the two attributions
are `0.1` and `0.4`, so no single factor `r ∈ [0, 0.5)` drawn once per call
reproduces them. -/
theorem calculateSHAPValues_single_factor_counterexample :
    ¬ ∃ r : ℝ, 0 ≤ r ∧ r < 0.5 ∧
      calculateSHAPValues [("a", 1), ("b", 1)] []
          (fun n => if n = 0 then 0.2 else 0.8) =
        ([("a", (1:ℝ)), ("b", 1)].map fun kv =>
          (kv.1, (kv.2 - ((([] : List (String × ℝ)).lookup kv.1).getD 0)) * r)) := by
  rintro ⟨r, _, _, heq⟩
  simp only [calculateSHAPValues, shapGo, List.lookup_nil, List.map_cons, List.map_nil] at heq
  norm_num at heq
  obtain ⟨h1, h2⟩ := heq
  linarith

/-- C8 amended: for every features map, baseline map and random stream in
`[0, 1)`, each feature's attribution equals `(observed - baseline) * r` for
its OWN fresh factor `r ∈ [0, 0.5)` — one draw per feature, not one per
call. -/
theorem calculateSHAPValues_per_feature_factor (features baselineValues : List (String × ℝ))
    (rand : ℕ → ℝ) (h : ∀ n, 0 ≤ rand n ∧ rand n < 1) :
    ∃ rs : List ℝ, rs.length = features.length ∧ (∀ r ∈ rs, 0 ≤ r ∧ r < 0.5) ∧
      calculateSHAPValues features baselineValues rand =
        (features.zip rs).map
          fun p => (p.1.1, (p.1.2 - ((baselineValues.lookup p.1.1).getD 0)) * p.2) := by
  refine ⟨(List.range features.length).map fun j => rand j * 0.5, by simp, ?_, ?_⟩
  · intro r hr
    obtain ⟨j, hj, rfl⟩ := List.mem_map.mp hr
    constructor
    · exact mul_nonneg (h j).1 (by norm_num)
    · nlinarith [(h j).2]
  · unfold calculateSHAPValues
    rw [shapGo_eq]
    congr 1
    congr 1
    apply List.map_congr_left
    intro j hj
    rw [Nat.zero_add]

/-- C8 amended, witness: a single feature with the constant stream `0.25`. -/
theorem calculateSHAPValues_per_feature_factor_witness :
    (∀ n : ℕ, 0 ≤ (fun _ : ℕ => (0.25:ℝ)) n ∧ (fun _ : ℕ => (0.25:ℝ)) n < 1) ∧
    (∃ rs : List ℝ, rs.length = ([("a", (2:ℝ))] : List (String × ℝ)).length ∧
      (∀ r ∈ rs, 0 ≤ r ∧ r < 0.5) ∧
      calculateSHAPValues [("a", 2)] [] (fun _ : ℕ => 0.25) =
        (([("a", (2:ℝ))] : List (String × ℝ)).zip rs).map
          fun p => (p.1.1, (p.1.2 - ((([] : List (String × ℝ)).lookup p.1.1).getD 0)) * p.2)) := by
  have hr : ∀ n : ℕ, 0 ≤ (fun _ : ℕ => (0.25:ℝ)) n ∧ (fun _ : ℕ => (0.25:ℝ)) n < 1 := by
    intro n
    norm_num
  exact ⟨hr, calculateSHAPValues_per_feature_factor [("a", 2)] [] (fun _ : ℕ => 0.25) hr⟩

/-- C9: evaluating a detector whose model was never built or loaded yields
the precondition-violation error `Model not initialized` — no metrics are
produced and no fresh model is built, for every forward pass and test
set. -/
theorem evaluateModel_uninitialized_error {M : Type} (forward : M → List ℝ → ℝ)
    (d : ExoplanetDetector M) (testData : List LightCurveData) (testLabels : List ℕ)
    (h : d.model = none) :
    evaluateModel forward d testData testLabels = Except.error "Model not initialized" := by
  unfold evaluateModel
  rw [h]

/-- C9 witness: a concrete uninitialised detector. -/
theorem evaluateModel_uninitialized_error_witness :
    evaluateModel (fun (_ : Unit) (_ : List ℝ) => 0)
        ⟨none, "v1.0.0-cnn-hybrid"⟩ [] [] = Except.error "Model not initialized" :=
  evaluateModel_uninitialized_error (fun (_ : Unit) (_ : List ℝ) => 0)
    ⟨none, "v1.0.0-cnn-hybrid"⟩ [] [] rfl

/-- C10: saving a detector whose model was never built or loaded performs
no store write at all and still resolves successfully, for every path. -/
theorem saveModel_uninitialized_noop {M : Type} (d : ExoplanetDetector M) (path : String)
    (h : d.model = none) :
    saveModel d path = Except.ok [] := by
  unfold saveModel
  rw [h]

/-- C10 witness: a concrete uninitialised detector and the default path. -/
theorem saveModel_uninitialized_noop_witness :
    saveModel (⟨none, "v1.0.0-cnn-hybrid"⟩ : ExoplanetDetector Unit)
        "localstorage://exoplanet-model" = Except.ok [] :=
  saveModel_uninitialized_noop (⟨none, "v1.0.0-cnn-hybrid"⟩ : ExoplanetDetector Unit)
    "localstorage://exoplanet-model" rfl

end SpaceApp

end
